import Mathlib

/-!
Verification of `generate_daily_report.py`, a batch NOC report generator:
it parses a CSV of incident records, tallies occurrence counts by severity
and by category, sorts the records by timestamp descending, and renders a
Markdown document.

Shallow embedding conventions:
* A CSV record (a Python `dict` produced by `csv.DictReader`) is an
  association list from field name to a record value.  A record value is
  `Option String`: `Option.none` models Python `None` (the `restval`
  padding of `DictReader`), `some s` a string cell.
* `Counter` is modelled as an insertion-ordered list of key/count pairs
  (Python dicts preserve insertion order, and incrementing an existing key
  keeps its position).
* Python `sorted(..., reverse=True)` and `Counter.most_common()` are both
  stable sorts by a key, descending.  They are modelled by a stable
  insertion sort `sortDesc`; any two stable descending sorts agree
  extensionally, which the lemmas below make precise (sortedness plus
  preservation of the per-key sublists).
* `datetime.now()` is passed in as an explicit `now : String` argument.
* File I/O is abstracted by a map from `(path, encoding)` to the decoded
  rows (`Option.none` when the file cannot be opened or decoded), and by a
  writability predicate on output paths; `main` returns `Except`, whose
  `error` case models the uncaught Python exception terminating the
  process with a non-zero status.
-/

namespace NocReport

/-- A Python value stored in a record: `Option.none` models Python `None`,
`some s` a string. -/
abbrev PyVal := Option String

/-- One incident record: the dict built by `csv.DictReader` for one row,
as an insertion-ordered association list with unique keys. -/
abbrev Record := List (String × PyVal)

/-- Python `str(v)` on a record value: `None` prints as the text `"None"`. -/
def pyStr : PyVal → String
  | Option.none => "None"
  | some s => s

/-- Python dict lookup, `d[k]` as a partial map: the value at the first
matching key (dicts built by the reader have unique keys). -/
def dlookup : Record → String → Option PyVal
  | [], _ => Option.none
  | p :: rest, k => if p.1 = k then some p.2 else dlookup rest k

/-- Python `d.get(k, default)`: the stored value when the key is present
(even when that value is `None`), otherwise the default. -/
def pyGet (r : Record) (k : String) (d : PyVal) : PyVal :=
  (dlookup r k).getD d

/-- Python dict insertion `d[k] = v`: replaces the value at an existing key
in place, otherwise appends the new key at the end (dicts preserve
insertion order). -/
def dinsert : Record → String → PyVal → Record
  | [], k, v => [(k, v)]
  | p :: rest, k, v => if p.1 = k then (k, v) :: rest else p :: dinsert rest k v

/-- The dict `csv.DictReader` builds for one data row: the header zipped
against the row's cells; when the row is shorter than the header, the
missing trailing fields are set to the reader's `restval`, which is
Python `None`.  (When the row is longer, `DictReader` stores the extra
cells under the non-string key `None`; no consumer in this program looks
that key up, so that entry is not modelled.) -/
def dictReaderRow (header : List String) (row : List String) : Record :=
  let base := (header.zip row).foldl (fun d p => dinsert d p.1 (some p.2)) []
  (header.drop row.length).foldl (fun d h => dinsert d h Option.none) base

/-- Abstract file system seen through `open(path, "r", encoding=...)` plus
`csv.reader`: for a `(path, encoding)` pair, `Option.none` when the source
cannot be opened or decoded with that encoding, otherwise the decoded
header row and the remaining rows. -/
abbrev FS := String → String → Option (List String × List (List String))

/-- Embedding of `read_incidents(path, encoding)`: an open/decode failure
raises (modelled as `Except.error`); otherwise every non-blank data row,
in input order, becomes one record (`csv.DictReader` skips rows that parse
to the empty list). -/
def read_incidents (fs : FS) (path encoding : String) :
    Except String (List Record) :=
  match fs path encoding with
  | Option.none => Except.error "InputError"
  | some pr => Except.ok ((pr.2.filter (fun r => ¬ r = [])).map (dictReaderRow pr.1))

/-- A `collections.Counter` over record values, as an insertion-ordered
list of key/count pairs with unique keys. -/
abbrev CounterL := List (PyVal × Nat)

/-- Embedding of `counter[k] += 1`: increments the count at an existing key
in place, otherwise appends the new key at the end with count 1. -/
def incr : CounterL → PyVal → CounterL
  | [], k => [(k, 1)]
  | p :: rest, k => if p.1 = k then (p.1, p.2 + 1) :: rest else p :: incr rest k

/-- The count stored for key `k` (0 when absent). -/
def countOf (c : CounterL) (k : PyVal) : Nat :=
  ((c.filter (fun p => p.1 = k)).map (fun p => p.2)).sum

/-- The total of all counts in the table. -/
def countsSum (c : CounterL) : Nat :=
  (c.map (fun p => p.2)).sum

/-- The keys of the table, in insertion order. -/
def keysOf (c : CounterL) : List PyVal :=
  c.map (fun p => p.1)

/-- The grouping value used for the severity table:
`inc.get("severidade", "Desconhecido")`. -/
def sevKey (inc : Record) : PyVal :=
  pyGet inc "severidade" (some "Desconhecido")

/-- The grouping value used for the category table:
`inc.get("categoria", "Desconhecido")`. -/
def catKey (inc : Record) : PyVal :=
  pyGet inc "categoria" (some "Desconhecido")

/-- Embedding of `summarize_incidents`: one linear pass incrementing both
counters for every record. -/
def summarize_incidents (incidents : List Record) : CounterL × CounterL :=
  incidents.foldl
    (fun sc inc => (incr sc.1 (sevKey inc), incr sc.2 (catKey inc)))
    ([], [])

/-- Stable insertion, descending by `key`: the new element goes in front of
the first element whose key is less than or equal to its own, so earlier
elements win ties. -/
def insDesc {α β : Type} [LinearOrder β] (key : α → β) (a : α) :
    List α → List α
  | [] => [a]
  | x :: xs => if key x ≤ key a then a :: x :: xs else x :: insDesc key a xs

/-- Stable sort, descending by `key`: the extensional behaviour of Python's
stable `sorted(..., key=..., reverse=True)`. -/
def sortDesc {α β : Type} [LinearOrder β] (key : α → β) (l : List α) :
    List α :=
  l.foldr (insDesc key) []

/-- The sort key of `sorted(incidents, key=lambda x: x.get("timestamp", ""))`
before comparison. -/
def tsKey (r : Record) : PyVal :=
  pyGet r "timestamp" (some "")

/-- The string actually compared when sorting.  Python compares the
`get` results directly, which requires them to be strings; `StrTS` below
delimits that domain, on which `getD ""` is the identity. -/
def sortKeyStr (r : Record) : String :=
  (tsKey r).getD ""

/-- Every record's timestamp sort key is a string (Python's `sorted` would
raise `TypeError` on a `None` key; records read from a CSV row at least as
long as the header always satisfy this). -/
def StrTS (incidents : List Record) : Prop :=
  ∀ inc ∈ incidents, (tsKey inc).isSome = true

instance decStrTS (incidents : List Record) : Decidable (StrTS incidents) :=
  List.decidableBAll (fun inc => (tsKey inc).isSome = true) incidents

/-- Embedding of `sorted(incidents, key=lambda x: x.get("timestamp", ""),
reverse=True)`. -/
def pySortDesc (l : List Record) : List Record :=
  sortDesc sortKeyStr l

/-- Embedding of `Counter.most_common()`:
`sorted(items, key=itemgetter(1), reverse=True)`, a stable sort on the
insertion-ordered items, descending by count. -/
def mostCommon (c : CounterL) : CounterL :=
  sortDesc (fun p => p.2) c

/-- Python slice `l[:n]` for an `int` bound `n`: the first `n` elements
when `n` is non-negative (all of them when `n` exceeds the length), and
all but the last `|n|` elements when `n` is negative. -/
def pySliceTo {α : Type} (l : List α) (n : Int) : List α :=
  if 0 ≤ n then l.take n.toNat else l.take (l.length - (-n).toNat)

/-- The text a field contributes to a recent-incidents line:
`str(inc.get(k))` — the lookup has no default, so an absent field yields
Python `None`, rendered as `"None"`. -/
def fieldText (inc : Record) (k : String) : String :=
  pyStr (pyGet inc k Option.none)

/-- One recent-incidents line:
the f-string `- `…`` **…** … - …: …` over the five field lookups. -/
def renderLine (inc : Record) : String :=
  "- `" ++ fieldText inc "timestamp" ++ "` **" ++ fieldText inc "severidade"
    ++ "** " ++ fieldText inc "categoria" ++ " - " ++ fieldText inc "host"
    ++ ": " ++ fieldText inc "descricao" ++ "\n"

/-- One statistics line: the f-string `- **{key}**: {count}`. -/
def statLine (p : PyVal × Nat) : String :=
  "- **" ++ pyStr p.1 ++ "**: " ++ toString p.2 ++ "\n"

/-- The recent-incidents entries appended to `md`: the records sorted by
timestamp descending, sliced to `[:limit]`, each rendered on one line. -/
def recentLines (incidents : List Record) (limit : Int) : List String :=
  (pySliceTo (pySortDesc incidents) limit).map renderLine

/-- The elements appended to `md` before the recent-incidents entries:
title, generation stamp, the two statistics blocks in `most_common` order,
and the section headers. -/
def statsPart (now : String) (severidades categorias : CounterL) :
    List String :=
  ["# Relatório Diário do NOC\n",
   "Data de geração: " ++ now ++ "\n",
   "## Estatísticas de Incidentes\n",
   "### Por Severidade\n"]
  ++ (mostCommon severidades).map statLine
  ++ ["\n### Por Categoria\n"]
  ++ (mostCommon categorias).map statLine
  ++ ["\n## Top Incidentes Recentes\n"]

/-- The full `md` list built by `generate_markdown`, in append order. -/
def mdList (incidents : List Record) (severidades categorias : CounterL)
    (limit : Int) (now : String) : List String :=
  statsPart now severidades categorias ++ recentLines incidents limit

/-- Embedding of `generate_markdown`: `"\n".join(md)`. -/
def generate_markdown (incidents : List Record)
    (severidades categorias : CounterL) (limit : Int) (now : String) :
    String :=
  String.intercalate "\n" (mdList incidents severidades categorias limit now)

/-- Embedding of `write_markdown`: succeeds exactly when the destination
is writable. -/
def write_markdown (writable : String → Bool) (mdText outputPath : String) :
    Except String Unit :=
  if writable outputPath then Except.ok () else Except.error "OutputError"

/-- The output path resolution in `main`: `if not output:` falls back to
`report_<timestamp>.md` (both `None` and the empty string are falsy). -/
def resolveOutput (output : Option String) (nowFile : String) : String :=
  match output with
  | some o => if o = "" then "report_" ++ nowFile ++ ".md" else o
  | Option.none => "report_" ++ nowFile ++ ".md"

/-- Embedding of `main`: read, summarize, render, write; an error from
reading or writing propagates unhandled (the Python process then exits
with a non-zero status), and on success the printed message names the
resolved output path. -/
def main (fs : FS) (writable : String → Bool) (input encoding : String)
    (output : Option String) (limit : Int) (now nowFile : String) :
    Except String String :=
  let out := resolveOutput output nowFile
  match read_incidents fs input encoding with
  | Except.error e => Except.error e
  | Except.ok incidents =>
      let sc := summarize_incidents incidents
      let mdText := generate_markdown incidents sc.1 sc.2 limit now
      match write_markdown writable mdText out with
      | Except.error e => Except.error e
      | Except.ok _ => Except.ok ("Relatório gerado: " ++ out)

/-- First-occurrence deduplication: the order in which distinct values are
first encountered in a sequence. -/
def firstDedup : List PyVal → List PyVal
  | [] => []
  | a :: l => a :: firstDedup (l.filter (fun x => ¬ x = a))
  termination_by l => l.length
  decreasing_by simpa using Nat.lt_succ_of_le (List.length_filter_le _ _)

/-! ### Counter lemmas -/

theorem countsSum_incr (c : CounterL) (j : PyVal) :
    countsSum (incr c j) = countsSum c + 1 := by
  induction c with
  | nil => simp [incr, countsSum]
  | cons p rest ih =>
      by_cases h : p.1 = j
      · simp [incr, h, countsSum]
        omega
      · simp only [incr, h, if_false, countsSum, List.map_cons,
          List.sum_cons] at ih ⊢
        omega

theorem countsSum_foldl (ks : List PyVal) :
    ∀ c : CounterL, countsSum (ks.foldl incr c) = countsSum c + ks.length := by
  induction ks with
  | nil => intro c; simp
  | cons j ks ih =>
      intro c
      simp only [List.foldl_cons, ih (incr c j), countsSum_incr, List.length_cons]
      omega

theorem countOf_cons (q : PyVal × Nat) (c : CounterL) (k : PyVal) :
    countOf (q :: c) k = (if q.1 = k then q.2 else 0) + countOf c k := by
  by_cases h : q.1 = k <;> simp [countOf, h, List.filter_cons]

theorem countOf_incr (c : CounterL) (j k : PyVal) :
    countOf (incr c j) k = countOf c k + (if j = k then 1 else 0) := by
  induction c with
  | nil =>
      by_cases h : j = k <;> simp [incr, countOf, List.filter_cons, h]
  | cons p rest ih =>
      by_cases h : p.1 = j
      · subst h
        by_cases hk : p.1 = k
        · simp [incr, countOf_cons, hk]
          omega
        · simp [incr, countOf_cons, hk]
      · simp only [incr, h, if_false]
        rw [countOf_cons, countOf_cons, ih]
        omega

theorem countOf_foldl (ks : List PyVal) :
    ∀ c : CounterL, ∀ k : PyVal,
      countOf (ks.foldl incr c) k = countOf c k + ks.count k := by
  induction ks with
  | nil => intro c k; simp
  | cons j ks ih =>
      intro c k
      simp only [List.foldl_cons, ih (incr c j) k, countOf_incr,
        List.count_cons]
      by_cases h : j = k <;> simp [h] <;> omega

theorem keysOf_cons (p : PyVal × Nat) (c : CounterL) :
    keysOf (p :: c) = p.1 :: keysOf c := rfl

theorem keysOf_incr_mem (c : CounterL) (j : PyVal) (h : j ∈ keysOf c) :
    keysOf (incr c j) = keysOf c := by
  induction c with
  | nil => simp [keysOf] at h
  | cons p rest ih =>
      by_cases hp : p.1 = j
      · simp [incr, hp, keysOf]
      · have hj : j ∈ keysOf rest := by
          rw [keysOf_cons] at h
          rcases List.mem_cons.mp h with h1 | h1
          · exact absurd h1.symm hp
          · exact h1
        have ih2 := ih hj
        simp only [incr, hp, if_false, keysOf_cons]
        rw [ih2]

theorem keysOf_incr_not_mem (c : CounterL) (j : PyVal) (h : ¬ j ∈ keysOf c) :
    keysOf (incr c j) = keysOf c ++ [j] := by
  induction c with
  | nil => simp [incr, keysOf]
  | cons p rest ih =>
      have hp : ¬ p.1 = j := by
        intro hcontra
        exact h (by rw [keysOf_cons, hcontra]; exact List.mem_cons_self _ _)
      have hrest : ¬ j ∈ keysOf rest := by
        intro hcontra
        exact h (by rw [keysOf_cons]; exact List.mem_cons_of_mem _ hcontra)
      have ih2 := ih hrest
      simp only [incr, hp, if_false, keysOf_cons]
      rw [ih2]
      rfl

theorem keysOf_foldl (ks : List PyVal) :
    ∀ c : CounterL,
      keysOf (ks.foldl incr c)
        = keysOf c ++ firstDedup (ks.filter (fun k => ¬ k ∈ keysOf c)) := by
  induction ks with
  | nil => intro c; simp [firstDedup]
  | cons j ks ih =>
      intro c
      by_cases h : j ∈ keysOf c
      · have hkeys : keysOf (incr c j) = keysOf c := keysOf_incr_mem c j h
        simp only [List.foldl_cons, ih (incr c j), hkeys, List.filter_cons]
        simp [h]
      · have hkeys : keysOf (incr c j) = keysOf c ++ [j] :=
          keysOf_incr_not_mem c j h
        simp only [List.foldl_cons, ih (incr c j), hkeys, List.filter_cons]
        have hpred : (ks.filter (fun k => ¬ k ∈ keysOf c ++ [j]))
            = (ks.filter (fun k => ¬ k ∈ keysOf c)).filter (fun x => ¬ x = j) := by
          rw [List.filter_filter]
          apply List.filter_congr
          intro x _
          by_cases hx : x ∈ keysOf c <;> by_cases hxj : x = j <;>
            simp [hx, hxj]
        rw [hpred]
        simp [h, firstDedup]

theorem mem_firstDedup (l : List PyVal) (x : PyVal) :
    x ∈ firstDedup l → x ∈ l := by
  induction l using firstDedup.induct with
  | case1 => intro h; simpa [firstDedup] using h
  | case2 a l ih =>
      intro hx
      rw [firstDedup] at hx
      rcases List.mem_cons.mp hx with h | h
      · simp [h]
      · exact List.mem_cons_of_mem _ (List.mem_of_mem_filter (ih h))

theorem nodup_firstDedup (l : List PyVal) : (firstDedup l).Nodup := by
  induction l using firstDedup.induct with
  | case1 => simp [firstDedup]
  | case2 a l ih =>
      rw [firstDedup]
      refine List.nodup_cons.mpr ⟨?_, ih⟩
      intro hmem
      have := mem_firstDedup _ _ hmem
      simp at this

theorem summarize_eq_foldl (incidents : List Record) :
    ∀ s c : CounterL,
      incidents.foldl
        (fun sc inc => (incr sc.1 (sevKey inc), incr sc.2 (catKey inc))) (s, c)
      = ((incidents.map sevKey).foldl incr s,
         (incidents.map catKey).foldl incr c) := by
  induction incidents with
  | nil => intro s c; simp
  | cons inc rest ih => intro s c; simp [ih]

theorem summarize_fst (incidents : List Record) :
    (summarize_incidents incidents).1 = (incidents.map sevKey).foldl incr [] := by
  simp [summarize_incidents, summarize_eq_foldl]

theorem summarize_snd (incidents : List Record) :
    (summarize_incidents incidents).2 = (incidents.map catKey).foldl incr [] := by
  simp [summarize_incidents, summarize_eq_foldl]

/-- Claim C1: for every record sequence, the counts in the severity table
produced by `summarize_incidents` sum to the number of input records, and
so do the counts in the category table: every record is counted exactly
once in each table (records with a missing grouping field are counted
under the sentinel key rather than dropped). -/
theorem C1_counts_partition (incidents : List Record) :
    countsSum (summarize_incidents incidents).1 = incidents.length
    ∧ countsSum (summarize_incidents incidents).2 = incidents.length := by
  constructor
  · rw [summarize_fst, countsSum_foldl]
    simp [countsSum]
  · rw [summarize_snd, countsSum_foldl]
    simp [countsSum]

/-! ### Stable descending sort lemmas -/

section SortLemmas

variable {α β : Type} [LinearOrder β] (key : α → β)

theorem length_insDesc (a : α) (l : List α) :
    (insDesc key a l).length = l.length + 1 := by
  induction l with
  | nil => simp [insDesc]
  | cons x xs ih =>
      by_cases h : key x ≤ key a <;> simp [insDesc, h, ih]

theorem length_sortDesc (l : List α) :
    (sortDesc key l).length = l.length := by
  induction l with
  | nil => simp [sortDesc]
  | cons x xs ih =>
      simp only [sortDesc, List.foldr_cons] at ih ⊢
      rw [length_insDesc, ih]
      simp

theorem mem_insDesc (a b : α) (l : List α) :
    b ∈ insDesc key a l ↔ b = a ∨ b ∈ l := by
  induction l with
  | nil => simp [insDesc]
  | cons x xs ih =>
      by_cases h : key x ≤ key a
      · simp only [insDesc, if_pos h, List.mem_cons]
      · simp only [insDesc, if_neg h, List.mem_cons, ih]
        tauto

theorem pairwise_insDesc (a : α) (l : List α)
    (hl : l.Pairwise (fun x y => key y ≤ key x)) :
    (insDesc key a l).Pairwise (fun x y => key y ≤ key x) := by
  induction l with
  | nil => simp [insDesc]
  | cons x xs ih =>
      rcases List.pairwise_cons.mp hl with ⟨hx, hxs⟩
      by_cases h : key x ≤ key a
      · simp only [insDesc, if_pos h]
        refine List.pairwise_cons.mpr ⟨?_, hl⟩
        intro y hy
        rcases List.mem_cons.mp hy with rfl | hy
        · exact h
        · exact le_trans (hx y hy) h
      · simp only [insDesc, if_neg h]
        refine List.pairwise_cons.mpr ⟨?_, ih hxs⟩
        intro y hy
        rcases (mem_insDesc key a y xs).mp hy with rfl | hy
        · exact le_of_lt (lt_of_not_le h)
        · exact hx y hy

theorem pairwise_sortDesc (l : List α) :
    (sortDesc key l).Pairwise (fun x y => key y ≤ key x) := by
  induction l with
  | nil => simp [sortDesc]
  | cons x xs ih =>
      simp only [sortDesc, List.foldr_cons] at ih ⊢
      exact pairwise_insDesc key x _ ih

variable [DecidableEq β]

theorem filter_insDesc (a : α) (l : List α) (k : β) :
    (insDesc key a l).filter (fun x => key x = k)
      = if key a = k then a :: l.filter (fun x => key x = k)
        else l.filter (fun x => key x = k) := by
  induction l with
  | nil =>
      by_cases h : key a = k <;> simp [insDesc, List.filter_cons, h]
  | cons x xs ih =>
      by_cases h : key x ≤ key a
      · simp only [insDesc, if_pos h]
        by_cases ha : key a = k <;> by_cases hx : key x = k <;>
          simp [List.filter_cons, ha, hx]
      · have hax : key a < key x := lt_of_not_le h
        simp only [insDesc, if_neg h]
        by_cases ha : key a = k
        · have hx : ¬ key x = k := by
            intro hx
            rw [ha, hx] at hax
            exact lt_irrefl k hax
          simp [List.filter_cons, hx, ih, ha]
        · by_cases hx : key x = k <;>
            simp [List.filter_cons, hx, ih, ha]

theorem filter_sortDesc (l : List α) (k : β) :
    (sortDesc key l).filter (fun x => key x = k)
      = l.filter (fun x => key x = k) := by
  induction l with
  | nil => simp [sortDesc]
  | cons x xs ih =>
      simp only [sortDesc, List.foldr_cons] at ih ⊢
      rw [filter_insDesc, ih]
      by_cases h : key x = k <;> simp [List.filter_cons, h]

end SortLemmas

/-! ### Sample data used by the witness theorems -/

/-- A sample incident (the earlier one of the spec's end-to-end example). -/
def sampleA : Record :=
  [("timestamp", some "2026-01-18 09:00:00"), ("severidade", some "Alta"),
   ("categoria", some "Rede"), ("host", some "h1"),
   ("descricao", some "Link down")]

/-- A sample incident (the later one of the spec's end-to-end example). -/
def sampleB : Record :=
  [("timestamp", some "2026-01-18 10:00:00"), ("severidade", some "Baixa"),
   ("categoria", some "Disco"), ("host", some "h2"),
   ("descricao", some "Low space")]

/-- The spec's end-to-end sample record sequence. -/
def sampleIncs : List Record := [sampleA, sampleB]

/-! ### Claim C2 -/

/-- Claim C2: for every record sequence and positive limit, the
recent-incidents section lists the records sorted by the `timestamp` field
in descending lexicographic order (a record with no `timestamp` field
sorts with the empty string, hence into the final block), the sort is
stable (for each key value the records keep their original relative
order), and the sorted sequence is truncated to the first `limit` entries.
Stated on the record domain `StrTS` where every present timestamp value is
a string, which is where Python's comparison is defined. -/
theorem C2_recent_listing (incs : List Record) (limit : Int) (k : String)
    (r : Record) (hpos : 0 < limit) (hts : StrTS incs)
    (hr : dlookup r "timestamp" = Option.none) :
    recentLines incs limit
      = ((pySortDesc incs).take limit.toNat).map renderLine
    ∧ (pySortDesc incs).Pairwise (fun a b => sortKeyStr b ≤ sortKeyStr a)
    ∧ (pySortDesc incs).filter (fun x => sortKeyStr x = k)
        = incs.filter (fun x => sortKeyStr x = k)
    ∧ sortKeyStr r = "" := by
  refine ⟨?_, pairwise_sortDesc sortKeyStr incs,
    filter_sortDesc sortKeyStr incs k, ?_⟩
  · simp [recentLines, pySliceTo, hpos.le]
  · simp [sortKeyStr, tsKey, pyGet, hr]

/-- Witness for C2 on the spec's sample records with limit 1. -/
theorem C2_recent_listing_witness :
    ((0 : Int) < 1 ∧ StrTS sampleIncs
        ∧ dlookup [] "timestamp" = Option.none)
    ∧ (recentLines sampleIncs 1
          = ((pySortDesc sampleIncs).take (1 : Int).toNat).map renderLine
      ∧ (pySortDesc sampleIncs).Pairwise
          (fun a b => sortKeyStr b ≤ sortKeyStr a)
      ∧ (pySortDesc sampleIncs).filter
            (fun x => sortKeyStr x = "2026-01-18 10:00:00")
          = sampleIncs.filter (fun x => sortKeyStr x = "2026-01-18 10:00:00")
      ∧ sortKeyStr [] = "") :=
  ⟨⟨by decide, by decide, rfl⟩,
    C2_recent_listing sampleIncs 1 "2026-01-18 10:00:00" []
      (by decide) (by decide) rfl⟩

/-! ### Claim C4 -/

/-- Claim C4: in the rendered severity and category breakdowns (which list
`mostCommon` of the corresponding table, one line per entry), the entries
are ordered by descending count; entries with equal counts keep the
table's insertion order, and the table's keys are exactly the distinct
grouping values in first-encountered order of the record sequence. -/
theorem C4_breakdown_order (incs : List Record) :
    (mostCommon (summarize_incidents incs).1).Pairwise (fun a b => b.2 ≤ a.2)
    ∧ (∀ n : Nat,
        (mostCommon (summarize_incidents incs).1).filter (fun p => p.2 = n)
          = (summarize_incidents incs).1.filter (fun p => p.2 = n))
    ∧ keysOf (summarize_incidents incs).1 = firstDedup (incs.map sevKey)
    ∧ (keysOf (summarize_incidents incs).1).Nodup
    ∧ (mostCommon (summarize_incidents incs).2).Pairwise (fun a b => b.2 ≤ a.2)
    ∧ (∀ n : Nat,
        (mostCommon (summarize_incidents incs).2).filter (fun p => p.2 = n)
          = (summarize_incidents incs).2.filter (fun p => p.2 = n))
    ∧ keysOf (summarize_incidents incs).2 = firstDedup (incs.map catKey)
    ∧ (keysOf (summarize_incidents incs).2).Nodup := by
  have hks : keysOf (summarize_incidents incs).1
      = firstDedup (incs.map sevKey) := by
    rw [summarize_fst, keysOf_foldl]
    simp [keysOf]
  have hkc : keysOf (summarize_incidents incs).2
      = firstDedup (incs.map catKey) := by
    rw [summarize_snd, keysOf_foldl]
    simp [keysOf]
  refine ⟨pairwise_sortDesc (fun p : PyVal × Nat => p.2) _,
    fun n => filter_sortDesc (fun p : PyVal × Nat => p.2) _ n,
    hks, ?_,
    pairwise_sortDesc (fun p : PyVal × Nat => p.2) _,
    fun n => filter_sortDesc (fun p : PyVal × Nat => p.2) _ n,
    hkc, ?_⟩
  · rw [hks]; exact nodup_firstDedup _
  · rw [hkc]; exact nodup_firstDedup _

/-! ### Claim C3 -/

/-- Claim C3 as stated is false on the code: `inc.get("severidade",
"Desconhecido")` substitutes the sentinel only when the key is absent, so
a record whose `severidade` value is the empty string is counted under the
empty string, not under the sentinel.  Concretely, for the single record
`{"severidade": ""}` the severity table is `{"": 1}` and the sentinel key
has count 0. -/
theorem C3_counterexample :
    (summarize_incidents [[("severidade", some "")]]).1 = [(some "", 1)]
    ∧ countOf (summarize_incidents [[("severidade", some "")]]).1
        (some "Desconhecido") = 0
    ∧ countOf (summarize_incidents [[("severidade", some "")]]).1
        (some "") = 1 := by
  refine ⟨by decide, by decide, by decide⟩

/-- Claim C3, amended: the sentinel `"Desconhecido"` is substituted only
when the grouping field (severity or category) is absent from the record;
a record whose grouping-field value is present — even when it is the
empty string — is counted under that value, so an empty-string value is
counted under the empty string and not under the sentinel.  Each table's
count at a key is the number of records whose (defaulted) grouping value
is that key. -/
theorem C3_amended (incs : List Record) (r rE : Record) (k : PyVal)
    (habsS : dlookup r "severidade" = Option.none)
    (habsC : dlookup r "categoria" = Option.none)
    (hval : dlookup rE "severidade" = some (some "")) :
    sevKey r = some "Desconhecido"
    ∧ catKey r = some "Desconhecido"
    ∧ sevKey rE = some ""
    ∧ ¬ sevKey rE = some "Desconhecido"
    ∧ countOf (summarize_incidents incs).1 k = (incs.map sevKey).count k
    ∧ countOf (summarize_incidents incs).2 k = (incs.map catKey).count k := by
  have h3 : sevKey rE = some "" := by simp [sevKey, pyGet, hval]
  refine ⟨?_, ?_, h3, ?_, ?_, ?_⟩
  · simp [sevKey, pyGet, habsS]
  · simp [catKey, pyGet, habsC]
  · rw [h3]; decide
  · rw [summarize_fst, countOf_foldl]
    simp [countOf]
  · rw [summarize_snd, countOf_foldl]
    simp [countOf]

/-- Witness for the amended C3 on concrete records. -/
theorem C3_amended_witness :
    (dlookup [] "severidade" = Option.none
      ∧ dlookup [] "categoria" = Option.none
      ∧ dlookup [("severidade", some "")] "severidade" = some (some ""))
    ∧ (sevKey [] = some "Desconhecido"
      ∧ catKey [] = some "Desconhecido"
      ∧ sevKey [("severidade", some "")] = some ""
      ∧ ¬ sevKey [("severidade", some "")] = some "Desconhecido"
      ∧ countOf (summarize_incidents sampleIncs).1 (some "Alta")
          = (sampleIncs.map sevKey).count (some "Alta")
      ∧ countOf (summarize_incidents sampleIncs).2 (some "Alta")
          = (sampleIncs.map catKey).count (some "Alta")) :=
  ⟨⟨rfl, rfl, rfl⟩,
    C3_amended sampleIncs [] [("severidade", some "")] (some "Alta")
      rfl rfl rfl⟩

/-! ### Claim C7 -/

/-- Claim C7: with limit 0 the recent-incidents section lists zero
entries; the statistics part of the document (everything before the
listed entries) is the same for every limit; and a limit greater than the
record count lists all records. -/
theorem C7_limit_frame (incs : List Record) (sev cat : CounterL)
    (now : String) (lim lim1 lim2 : Int)
    (hlim : (incs.length : Int) < lim) (hts : StrTS incs) :
    recentLines incs 0 = []
    ∧ (mdList incs sev cat lim1 now).take (statsPart now sev cat).length
        = statsPart now sev cat
    ∧ (mdList incs sev cat lim2 now).take (statsPart now sev cat).length
        = statsPart now sev cat
    ∧ recentLines incs lim = (pySortDesc incs).map renderLine := by
  have htake : ∀ l : Int,
      (mdList incs sev cat l now).take (statsPart now sev cat).length
        = statsPart now sev cat := by
    intro l
    rw [mdList, List.take_left]
  refine ⟨?_, htake lim1, htake lim2, ?_⟩
  · simp [recentLines, pySliceTo]
  · have h0 : (0 : Int) ≤ lim := by omega
    have hlen : (pySortDesc incs).length ≤ lim.toNat := by
      simp only [pySortDesc, length_sortDesc]
      omega
    simp [recentLines, pySliceTo, h0, List.take_of_length_le hlen]

/-- Witness for C7 on the spec's sample records. -/
theorem C7_limit_frame_witness :
    ((sampleIncs.length : Int) < 5 ∧ StrTS sampleIncs)
    ∧ (recentLines sampleIncs 0 = []
      ∧ (mdList sampleIncs [] [] 0 "T").take (statsPart "T" [] []).length
          = statsPart "T" [] []
      ∧ (mdList sampleIncs [] [] 3 "T").take (statsPart "T" [] []).length
          = statsPart "T" [] []
      ∧ recentLines sampleIncs 5 = (pySortDesc sampleIncs).map renderLine) :=
  ⟨⟨by decide, by decide⟩,
    C7_limit_frame sampleIncs [] [] "T" 5 0 3 (by decide) (by decide)⟩

/-! ### Claim C8 -/

/-- Claim C8: the pipeline after reading is a pure function of the records
and the limit, so two runs on identical records differ only in the
generation-timestamp line: removing position 1 (the `Data de geração`
line) from the built `md` list yields identical line lists — in
particular byte-identical statistics and listing sections — and position
1 is exactly the generation-timestamp line. -/
theorem C8_determinism (incs : List Record) (lim : Int) (now1 now2 : String) :
    (mdList incs (summarize_incidents incs).1 (summarize_incidents incs).2
        lim now1).eraseIdx 1
      = (mdList incs (summarize_incidents incs).1 (summarize_incidents incs).2
          lim now2).eraseIdx 1
    ∧ (mdList incs (summarize_incidents incs).1 (summarize_incidents incs).2
        lim now1)[1]?
      = some ("Data de geração: " ++ now1 ++ "\n") := by
  exact ⟨rfl, rfl⟩

/-! ### Claim C9 -/

/-- Claim C9: in a recent-incidents line the five render-time lookups use
`get` with no default, so a field absent from the record contributes the
literal text `"None"` — not the sentinel `"Desconhecido"` and not empty
text — and the line is exactly the concatenation of those five field
texts in the fixed format. -/
theorem C9_absent_field_renders_None (inc : Record) (k : String)
    (hk : k ∈ ["timestamp", "severidade", "categoria", "host", "descricao"])
    (habs : dlookup inc k = Option.none) :
    fieldText inc k = "None"
    ∧ ¬ fieldText inc k = "Desconhecido"
    ∧ ¬ fieldText inc k = ""
    ∧ renderLine inc
      = "- `" ++ fieldText inc "timestamp" ++ "` **"
        ++ fieldText inc "severidade" ++ "** " ++ fieldText inc "categoria"
        ++ " - " ++ fieldText inc "host" ++ ": "
        ++ fieldText inc "descricao" ++ "\n" := by
  have h1 : fieldText inc k = "None" := by
    simp [fieldText, pyGet, habs, pyStr]
  refine ⟨h1, ?_, ?_, rfl⟩
  · rw [h1]; decide
  · rw [h1]; decide

/-- Witness for C9: the empty record misses the `host` field. -/
theorem C9_absent_field_renders_None_witness :
    ("host" ∈ ["timestamp", "severidade", "categoria", "host", "descricao"]
      ∧ dlookup [] "host" = Option.none)
    ∧ (fieldText [] "host" = "None"
      ∧ ¬ fieldText [] "host" = "Desconhecido"
      ∧ ¬ fieldText [] "host" = ""
      ∧ renderLine []
        = "- `" ++ fieldText [] "timestamp" ++ "` **"
          ++ fieldText [] "severidade" ++ "** " ++ fieldText [] "categoria"
          ++ " - " ++ fieldText [] "host" ++ ": "
          ++ fieldText [] "descricao" ++ "\n") :=
  ⟨⟨by decide, rfl⟩,
    C9_absent_field_renders_None [] "host" (by decide) rfl⟩

/-! ### Claim C10 -/

/-- Claim C10: a negative limit does not fail — the slice `[:limit]` keeps
the timestamp-descending-sorted records with the last `|limit|` entries
omitted, and the listing is empty when `|limit|` is at least the record
count.  Stated on the `StrTS` domain where Python's sort comparison is
defined. -/
theorem C10_negative_limit (incs : List Record) (n : Int)
    (hneg : n < 0) (hts : StrTS incs) :
    recentLines incs n
      = ((pySortDesc incs).take (incs.length - (-n).toNat)).map renderLine
    ∧ (recentLines incs n = [] ∨ (-n).toNat < incs.length) := by
  have hn : ¬ (0 ≤ n) := not_le.mpr hneg
  have hlen : (pySortDesc incs).length = incs.length := by
    simp only [pySortDesc, length_sortDesc]
  have hmain : recentLines incs n
      = ((pySortDesc incs).take (incs.length - (-n).toNat)).map renderLine := by
    simp [recentLines, pySliceTo, hn, hlen]
  refine ⟨hmain, ?_⟩
  by_cases hge : incs.length ≤ (-n).toNat
  · left
    have h0 : incs.length - (-n).toNat = 0 := by omega
    rw [hmain, h0]
    simp
  · right
    omega

/-- Witness for C10 on the spec's sample records with limit -5. -/
theorem C10_negative_limit_witness :
    ((-5 : Int) < 0 ∧ StrTS sampleIncs)
    ∧ (recentLines sampleIncs (-5)
        = ((pySortDesc sampleIncs).take
            (sampleIncs.length - (-(-5 : Int)).toNat)).map renderLine
      ∧ (recentLines sampleIncs (-5) = []
          ∨ (-(-5 : Int)).toNat < sampleIncs.length)) :=
  ⟨⟨by decide, by decide⟩,
    C10_negative_limit sampleIncs (-5) (by decide) (by decide)⟩

/-! ### Claim C5 -/

theorem dlookup_dinsert_self (d : Record) (k : String) (v : PyVal) :
    dlookup (dinsert d k v) k = some v := by
  induction d with
  | nil => simp [dinsert, dlookup]
  | cons p rest ih =>
      by_cases h : p.1 = k
      · simp [dinsert, h, dlookup]
      · simp [dinsert, h, dlookup, ih]

theorem dlookup_dinsert_ne (d : Record) (j k : String) (v : PyVal)
    (hjk : ¬ j = k) :
    dlookup (dinsert d j v) k = dlookup d k := by
  induction d with
  | nil => simp [dinsert, dlookup, hjk]
  | cons p rest ih =>
      by_cases h : p.1 = j
      · have hpk : ¬ p.1 = k := by rw [h]; exact hjk
        simp [dinsert, h, dlookup, hjk, hpk]
      · have hkj : ¬ k = j := fun he => hjk he.symm
        by_cases hpk : p.1 = k <;> simp [dinsert, h, dlookup, hpk, hkj, ih]

theorem dlookup_padFold_not_mem (hs : List String) :
    ∀ (d : Record) (k : String), ¬ k ∈ hs →
      dlookup (hs.foldl (fun d h => dinsert d h Option.none) d) k
        = dlookup d k := by
  induction hs with
  | nil => intro d k _; rfl
  | cons h hs ih =>
      intro d k hk
      have h1 : ¬ h = k := fun he => hk (by rw [he]; exact List.mem_cons_self _ _)
      have h2 : ¬ k ∈ hs := fun hm => hk (List.mem_cons_of_mem _ hm)
      simp only [List.foldl_cons]
      rw [ih _ k h2, dlookup_dinsert_ne _ _ _ _ h1]

theorem dlookup_padFold_mem (hs : List String) :
    ∀ (d : Record) (k : String), k ∈ hs →
      dlookup (hs.foldl (fun d h => dinsert d h Option.none) d) k
        = some Option.none := by
  induction hs with
  | nil => intro d k hk; simp at hk
  | cons h hs ih =>
      intro d k hk
      simp only [List.foldl_cons]
      by_cases hm : k ∈ hs
      · exact ih _ k hm
      · have hk2 : h = k := by
          rcases List.mem_cons.mp hk with h1 | h1
          · exact h1.symm
          · exact absurd h1 hm
        rw [dlookup_padFold_not_mem hs _ k hm, hk2, dlookup_dinsert_self]

/-- Claim C5: for every input row with fewer cells than the header, the
reader pads the record: each trailing header field missing from the row is
present in the resulting record and maps to the reader's padding value
(`restval`, Python `None` — the record's empty value). -/
theorem C5_short_row_padding (header row : List String) (k : String)
    (hshort : row.length < header.length)
    (hk : k ∈ header.drop row.length) :
    dlookup (dictReaderRow header row) k = some Option.none := by
  have h := dlookup_padFold_mem (header.drop row.length)
    ((header.zip row).foldl (fun d p => dinsert d p.1 (some p.2)) []) k hk
  simpa [dictReaderRow] using h

/-- Witness for C5: a two-field header with a one-cell row. -/
theorem C5_short_row_padding_witness :
    ((["a"] : List String).length < (["timestamp", "severidade"] : List String).length
      ∧ "severidade" ∈ (["timestamp", "severidade"] : List String).drop (["a"] : List String).length)
    ∧ dlookup (dictReaderRow ["timestamp", "severidade"] ["a"]) "severidade"
        = some Option.none :=
  ⟨⟨by decide, by decide⟩,
    C5_short_row_padding ["timestamp", "severidade"] ["a"] "severidade"
      (by decide) (by decide)⟩

/-! ### Claim C6 -/

/-- Claim C6: reading fails with the input-error kind exactly when the
source cannot be opened or decoded with the given encoding (modelled by
the abstract file system returning nothing for that path/encoding pair);
such a failure propagates through `main`, terminating the run as an error
(the non-zero-status outcome); otherwise `read_incidents` returns one
record per non-blank row, in input row order. -/
theorem C6_input_errors (fsAny fsBad fsGood : FS) (path encoding : String)
    (hdr : List String) (rows : List (List String))
    (writable : String → Bool) (output : Option String)
    (lim : Int) (now nowFile : String)
    (hbad : fsBad path encoding = Option.none)
    (hgood : fsGood path encoding = some (hdr, rows)) :
    (read_incidents fsAny path encoding = Except.error "InputError"
      ↔ fsAny path encoding = Option.none)
    ∧ read_incidents fsBad path encoding = Except.error "InputError"
    ∧ main fsBad writable path encoding output lim now nowFile
        = Except.error "InputError"
    ∧ read_incidents fsGood path encoding
        = Except.ok ((rows.filter (fun r => ¬ r = [])).map (dictReaderRow hdr)) := by
  refine ⟨⟨?_, ?_⟩, ?_, ?_, ?_⟩
  · intro h
    cases hcase : fsAny path encoding with
    | none => rfl
    | some pr =>
        rw [read_incidents] at h
        rw [hcase] at h
        simp at h
  · intro h
    rw [read_incidents, h]
  · rw [read_incidents, hbad]
  · rw [main, read_incidents, hbad]
  · rw [read_incidents, hgood]

/-- Witness for C6 with one failing and one succeeding file system. -/
theorem C6_input_errors_witness :
    ((fun (_ : String) (_ : String) =>
        (Option.none : Option (List String × List (List String)))) "in" "utf-8"
        = Option.none
      ∧ (fun (_ : String) (_ : String) =>
          some ((["a"], [["x"], []]) : List String × List (List String))) "in" "utf-8"
        = some ((["a"], [["x"], []]) : List String × List (List String)))
    ∧ ((read_incidents
          (fun _ _ => (Option.none : Option (List String × List (List String))))
          "in" "utf-8" = Except.error "InputError"
        ↔ (fun (_ : String) (_ : String) =>
            (Option.none : Option (List String × List (List String)))) "in" "utf-8"
          = Option.none)
      ∧ read_incidents
          (fun _ _ => (Option.none : Option (List String × List (List String))))
          "in" "utf-8" = Except.error "InputError"
      ∧ main (fun _ _ => (Option.none : Option (List String × List (List String))))
          (fun _ => true) "in" "utf-8" Option.none 10 "T" "T"
          = Except.error "InputError"
      ∧ read_incidents
          (fun _ _ => some ((["a"], [["x"], []]) : List String × List (List String)))
          "in" "utf-8"
        = Except.ok ((([["x"], []] : List (List String)).filter
            (fun r => ¬ r = [])).map (dictReaderRow ["a"]))) :=
  ⟨⟨rfl, rfl⟩,
    C6_input_errors
      (fun _ _ => (Option.none : Option (List String × List (List String))))
      (fun _ _ => (Option.none : Option (List String × List (List String))))
      (fun _ _ => some ((["a"], [["x"], []]) : List String × List (List String)))
      "in" "utf-8" ["a"] [["x"], []] (fun _ => true) Option.none 10 "T" "T"
      rfl rfl⟩

end NocReport
